import Mathlib

/-!
Verification development for the moco cluster-health / failover core.

Part 1 embeds `src/clustering/agent.go` (the Agent Connection Factory):
Go contexts with deadlines, the Resolver and certificate-Reloader
collaborators, the `defaultAgentFactory` struct and its `New` method.
External collaborators (the resolver function, the gRPC library, the TLS
reloader) are modelled as explicit function-valued parameters; the
embedding of `New` additionally records, as data in its result, the
context passed to each `Resolve` invocation and the address/options of
each `grpc.NewClient` invocation, so that call-count and call-argument
properties are statable.

Part 2 models, from the specification, the components of this repository
whose code is not in the excerpt (Instance Status Collector, Cluster
State Aggregator, Failover Decision Logic, Topology Operators); each such
definition carries a doc comment starting `Modelled from the spec:`.
-/

namespace Moco

/-- A Go error value (modelled as its message string). -/
structure GoError where
  msg : String
deriving DecidableEq, Repr

/-- A Go `context.Context`, reduced to what `agent.go` consumes: the
current wall-clock instant and an optional absolute deadline, both in
seconds. -/
structure Context where
  now : Nat
  deadline : Option Nat
deriving DecidableEq, Repr

/-- `context.WithTimeout(ctx, d)`: the child context's deadline is
`now + d`, capped by the parent's deadline when the parent has one. -/
def Context.withTimeout (ctx : Context) (d : Nat) : Context :=
  match ctx.deadline with
  | none => { ctx with deadline := some (ctx.now + d) }
  | some dl => { ctx with deadline := some (min dl (ctx.now + d)) }

/-- The `mocov1beta2.MySQLCluster` resource, reduced to the fields this
core reads: its name, its declared instance count, the tolerance for
unreachable instances, and the optional external replication-source
reference name. -/
structure MySQLCluster where
  name : String
  replicas : Nat
  unreachableTolerance : Nat
  replicationSourceSecretName : Option String
deriving DecidableEq, Repr

/-- Modelled from the spec: `cluster.PodHostname(index)`, the instance's
stable pod hostname (a pure function of the cluster identity and the
instance index, never of a resolved address). The moco implementation of
this helper is outside the excerpt. -/
def MySQLCluster.PodHostname (c : MySQLCluster) (index : Nat) : String :=
  c.name ++ "-" ++ toString index

/-- Modelled from the spec: `constants.AgentPort`, the fixed port of the
per-instance agent; the constants package is outside the excerpt. -/
def AgentPort : Nat := 9080

/-- `net.JoinHostPort`. -/
def joinHostPort (host port : String) : String := host ++ ":" ++ port

/-- TLS client configuration as produced by `cert.Reloader`, reduced to
an abstract certificate generation counter. -/
structure TLSConfig where
  certGeneration : Nat
deriving DecidableEq, Repr

/-- `credentials.NewTLS`: transport credentials built from a TLS client
configuration. -/
structure TransportCredentials where
  tls : TLSConfig
deriving DecidableEq, Repr

def credentialsNewTLS (c : TLSConfig) : TransportCredentials := ⟨c⟩

/-- The `cert.Reloader` collaborator: a read-mostly holder of the current
TLS client identity. Its snapshot may be replaced at any instant, so it
is modelled as a function from the reading instant to the configuration
current at that instant. -/
structure Reloader where
  configAt : Nat → TLSConfig

/-- `(*cert.Reloader).TLSClientConfig()` read at instant `t`. -/
def Reloader.TLSClientConfig (r : Reloader) (t : Nat) : TLSConfig :=
  r.configAt t

/-- The `dbop.Resolver` collaborator:
`Resolve(ctx, cluster, index) -> (address, error)`. -/
structure Resolver where
  resolve : Context → MySQLCluster → Nat → Except GoError String

/-- `keepalive.ClientParameters`, reduced to the ping period (`Time`), in
seconds. -/
structure KeepaliveClientParameters where
  time : Nat
deriving DecidableEq, Repr

/-- The dial options `New` passes to `grpc.NewClient`:
`grpc.WithAuthority`, `grpc.WithTransportCredentials`,
`grpc.WithKeepaliveParams`. -/
structure DialOptions where
  authority : String
  creds : TransportCredentials
  keepalive : KeepaliveClientParameters
deriving DecidableEq, Repr

/-- An established `*grpc.ClientConn`, abstract handle. -/
structure GrpcClientConn where
  handle : Nat
deriving DecidableEq, Repr

/-- An `agent.AgentClient` RPC stub, abstract handle. -/
structure AgentClient where
  handle : Nat
deriving DecidableEq, Repr

/-- The gRPC library surface `New` uses: `grpc.NewClient` (channel
creation, which may fail) and `agent.NewAgentClient` (stub creation). -/
structure GrpcEnv where
  newClient : String → DialOptions → Except GoError GrpcClientConn
  newAgentClient : GrpcClientConn → AgentClient

/-- The `agentConn` struct: it embeds an `agent.AgentClient` and a
`*grpc.ClientConn`; each embedded field is `Option`al because Go permits
the zero value `agentConn{}` whose embedded interface and pointer are
both nil. -/
structure agentConn where
  agentClient : Option AgentClient
  clientConn : Option GrpcClientConn
deriving DecidableEq, Repr

/-- The Go zero value `agentConn{}`. -/
def agentConnZero : agentConn := ⟨none, none⟩

/-- The embedded `agent.AgentClient` of an `agentConn` is usable (non-nil):
the value acts as the agent RPC client. -/
def agentConn.providesAgentClient (c : agentConn) : Prop :=
  c.agentClient.isSome = true

/-- The embedded `*grpc.ClientConn` of an `agentConn` is usable (non-nil):
`(*grpc.ClientConn).Close` makes the value an `io.Closer`. -/
def agentConn.providesCloser (c : agentConn) : Prop :=
  c.clientConn.isSome = true

/-- The `defaultAgentFactory` struct: its only fields are the resolver
and the certificate reloader fixed at construction
(`NewAgentFactory`). -/
structure defaultAgentFactory where
  resolver : Resolver
  reloader : Reloader

/-- `NewAgentFactory(r, reloader)`. -/
def NewAgentFactory (r : Resolver) (reloader : Reloader) : defaultAgentFactory :=
  ⟨r, reloader⟩

/-- The result of `defaultAgentFactory.New`: the two Go return values,
plus a record of each invocation of the external collaborators (the
contexts passed to `Resolve`, and the address/options pairs passed to
`grpc.NewClient`), so that call counts and call arguments are statable. -/
structure NewOutcome where
  conn : Option agentConn
  err : Option GoError
  resolveCalls : List Context
  dialCalls : List (String × DialOptions)
deriving Repr

/-- Embedding of `defaultAgentFactory.New` (src/clustering/agent.go,
lines 50-74): derive a context bounded by a 5-second timeout, resolve
the instance address under it, and on success dial with authority
`cluster.PodHostname(index)`, TLS credentials read from the reloader at
call time, and a 60-second keepalive ping period. A resolver failure is
returned as `(nil, err)`; a `grpc.NewClient` failure as
`(agentConn{}, err)`. -/
def defaultAgentFactory.New (f : defaultAgentFactory) (env : GrpcEnv)
    (ctx : Context) (cluster : MySQLCluster) (index : Nat) : NewOutcome :=
  let ctx' := ctx.withTimeout 5
  match f.resolver.resolve ctx' cluster index with
  | .error e => ⟨none, some e, [ctx'], []⟩
  | .ok ip =>
    let addr := joinHostPort ip (toString AgentPort)
    let kp : KeepaliveClientParameters := ⟨60⟩
    let cred := credentialsNewTLS (f.reloader.TLSClientConfig ctx.now)
    let opts : DialOptions := ⟨cluster.PodHostname index, cred, kp⟩
    match env.newClient addr opts with
    | .error e => ⟨some agentConnZero, some e, [ctx'], [(addr, opts)]⟩
    | .ok conn =>
      ⟨some ⟨some (env.newAgentClient conn), some conn⟩, none, [ctx'], [(addr, opts)]⟩

/-! ## Part 2: spec-modelled components -/

/-- Per-instance observed snapshot (`InstanceStatus` in the data model):
global read-only flag, replication IO/SQL thread states, last IO/SQL
error numbers, replication source host/port, and the executed-transaction
position used for candidate comparison. -/
structure InstanceStatus where
  readOnly : Bool
  ioRunning : Bool
  sqlRunning : Bool
  lastIoErrno : Nat
  lastSqlErrno : Nat
  sourceHost : String
  sourcePort : Nat
  gtidExecuted : Nat
deriving DecidableEq, Repr

/-- Modelled from the spec: the Aggregator's per-instance classification.
An absent status (`none`, the Collector's per-index error marker) is
`unreachable`; a non-read-only instance is a `primaryCandidate`; a
read-only instance with both threads running and no error is
`replicaHealthy`; any other read-only instance is `replicaBroken`. The
Aggregator code is outside the excerpt. -/
inductive InstanceClass where
  | unreachable
  | replicaHealthy
  | replicaBroken
  | primaryCandidate
deriving DecidableEq, Repr

def classify : Option InstanceStatus → InstanceClass
  | none => .unreachable
  | some s =>
    if !s.readOnly then .primaryCandidate
    else if s.ioRunning && s.sqlRunning && s.lastIoErrno == 0 && s.lastSqlErrno == 0 then
      .replicaHealthy
    else .replicaBroken

/-- Modelled from the spec: the reason codes a Degraded judgment carries. -/
inductive DegradedReason where
  | allUnreachable
  | noPrimary
  | multiplePrimaries
  | brokenReplica
  | tooManyUnreachable
deriving DecidableEq, Repr

/-- Cluster-wide health judgment: Healthy, or Degraded with a reason. -/
inductive ClusterHealth where
  | healthy
  | degraded (reason : DegradedReason)
deriving DecidableEq, Repr

/-- Aggregated view (`ClusterStatus` in the data model): health
condition, selected primary index (or none), and the per-instance
statuses it was built from. -/
structure ClusterStatus where
  health : ClusterHealth
  primaryIndex : Option Nat
  instances : List (Option InstanceStatus)
deriving DecidableEq, Repr

/-- Number of instances of a given class in a status list. -/
def countClass (sts : List (Option InstanceStatus)) (k : InstanceClass) : Nat :=
  sts.countP (fun s => classify s == k)

/-- Modelled from the spec: `Aggregate(ClusterSpec, []InstanceStatus) ->
ClusterStatus`. Healthy iff exactly one `primaryCandidate`, no
`replicaBroken`, and no more `unreachable` instances than the configured
tolerance; any other combination is Degraded with the reason code of the
offending condition. A wholly unreachable instance set gets its own
reason. The selected primary index (the first `primaryCandidate`) is
recorded even when the cluster is Degraded. The Aggregator code is
outside the excerpt. -/
def aggHealth (cluster : MySQLCluster) (sts : List (Option InstanceStatus)) :
    ClusterHealth :=
  if sts.length ≠ 0 ∧ countClass sts .unreachable = sts.length then
    .degraded .allUnreachable
  else if countClass sts .primaryCandidate = 0 then .degraded .noPrimary
  else if countClass sts .primaryCandidate > 1 then .degraded .multiplePrimaries
  else if countClass sts .replicaBroken > 0 then .degraded .brokenReplica
  else if countClass sts .unreachable > cluster.unreachableTolerance then
    .degraded .tooManyUnreachable
  else .healthy

def Aggregate (cluster : MySQLCluster) (sts : List (Option InstanceStatus)) :
    ClusterStatus :=
  { health := aggHealth cluster sts
    primaryIndex := sts.findIdx? (fun s => classify s == .primaryCandidate)
    instances := sts }

/-- Modelled from the spec: `Collect(context, cluster)` issues one status
query per instance index and places each result — a status or an
explicit per-index error marker (`none`) — in the slot of its index. The
Collector code is outside the excerpt. `query i = none` models a failed
query to instance `i`. -/
def Collect (n : Nat) (query : Nat → Option InstanceStatus) :
    List (Option InstanceStatus) :=
  (List.range n).map query

/-- Modelled from the spec: the same collection with an explicit
completion order. Each concurrent query writes its result into the slot
of its own index as it completes; `order` is the sequence in which the
queries complete. -/
def CollectWithOrder (n : Nat) (query : Nat → Option InstanceStatus)
    (order : List Nat) : List (Option InstanceStatus) :=
  order.foldl (fun acc i => acc.set i (query i)) (List.replicate n none)

/-- Status at a slot of the collected list (`none` past the end). -/
def statusAt (sts : List (Option InstanceStatus)) (i : Nat) : Option InstanceStatus :=
  sts.getD i none

/-- Executed-transaction position of the instance at a slot (0 when the
slot holds no status). -/
def gtidAt (sts : List (Option InstanceStatus)) (i : Nat) : Nat :=
  match statusAt sts i with
  | some s => s.gtidExecuted
  | none => 0

/-- Indices classified `primaryCandidate`, in increasing index order. -/
def candidateIndices (sts : List (Option InstanceStatus)) : List Nat :=
  (List.range sts.length).filter (fun i => classify (statusAt sts i) == .primaryCandidate)

/-- Indices classified `replicaHealthy`, in increasing index order. -/
def healthyReplicaIndices (sts : List (Option InstanceStatus)) : List Nat :=
  (List.range sts.length).filter (fun i => classify (statusAt sts i) == .replicaHealthy)

/-- Indices classified `replicaBroken`, in increasing index order. -/
def brokenReplicaIndices (sts : List (Option InstanceStatus)) : List Nat :=
  (List.range sts.length).filter (fun i => classify (statusAt sts i) == .replicaBroken)

/-- Modelled from the spec: candidate selection — pick from a list of
indices the one with the highest executed-transaction position, keeping
the earliest-listed index on ties (for index lists in increasing order
this is the lowest index). The Decision Logic code is outside the
excerpt. -/
def pickBest (sts : List (Option InstanceStatus)) : List Nat → Option Nat
  | [] => none
  | i :: rest =>
    match pickBest sts rest with
    | none => some i
    | some b => if gtidAt sts i < gtidAt sts b then some b else some i

/-- One topology action emitted by the Decision Logic. -/
inductive DecisionAction where
  | demote (index : Nat)
  | promote (index : Nat)
  | repairReplica (index : Nat)
deriving DecidableEq, Repr

/-- Outcome of one Decision Logic pass: a list of actions, or the
terminal `failed` condition when no viable candidate exists. -/
inductive DecisionOutcome where
  | actions (ops : List DecisionAction)
  | failed
deriving DecidableEq, Repr

/-- Modelled from the spec: one Failover Decision Logic pass over an
aggregated status. More than one primary candidate: demote every
candidate except the one with the highest executed-transaction position
(no promotion is emitted while the ambiguity exists). No candidate:
promote the best healthy replica, or report `failed` when none exists.
Exactly one candidate: emit a repair action per broken replica. The
Decision Logic code is outside the excerpt. -/
def Decide (cs : ClusterStatus) : DecisionOutcome :=
  let sts := cs.instances
  match candidateIndices sts with
  | [] =>
    match pickBest sts (healthyReplicaIndices sts) with
    | none => .failed
    | some t => .actions [.promote t]
  | [_] => .actions ((brokenReplicaIndices sts).map .repairReplica)
  | i :: j :: rest =>
    let cands := i :: j :: rest
    let keep := (pickBest sts cands).getD i
    .actions ((cands.filter (fun k => k ≠ keep)).map .demote)

/-- Set the global read-only flag of the instance at one slot. -/
def setReadOnlyAt (sts : List (Option InstanceStatus)) (i : Nat) :
    List (Option InstanceStatus) :=
  sts.set i ((statusAt sts i).map fun s => { s with readOnly := true })

/-- Modelled from the spec: the observable effect of one action on the
per-instance statuses — a demotion sets the target's read-only flag, a
promotion clears it, a replica repair restarts the target's replication
threads against the current primary. -/
def applyAction (sts : List (Option InstanceStatus)) :
    DecisionAction → List (Option InstanceStatus)
  | .demote i => setReadOnlyAt sts i
  | .promote i => sts.set i ((statusAt sts i).map fun s => { s with readOnly := false })
  | .repairReplica i =>
    sts.set i ((statusAt sts i).map fun s =>
      { s with ioRunning := true, sqlRunning := true, lastIoErrno := 0, lastSqlErrno := 0 })

/-- Modelled from the spec: the statuses observed after the actions of
one Decision Logic pass have been applied. -/
def OnePass (cs : ClusterStatus) : List (Option InstanceStatus) :=
  match Decide cs with
  | .failed => cs.instances
  | .actions ops => ops.foldl applyAction cs.instances

/-! ### Topology Operators -/

/-- `accessor.IntermediatePrimaryOptions`: the externally declared
replication-source reference (host, port, user, password). -/
structure IntermediatePrimaryOptions where
  primaryHost : String
  primaryPort : Nat
  primaryUser : String
  primaryPassword : String
deriving DecidableEq, Repr

/-- Observable replication-related state of one database instance. -/
structure DBState where
  readOnly : Bool
  sourceHost : String
  sourcePort : Nat
  sourceUser : String
  ioRunning : Bool
  sqlRunning : Bool
  ioErrno : Nat
  sqlErrno : Nat
  gtidExecuted : Nat
deriving DecidableEq, Repr

/-- The replication network environment: the IO error number an instance
observes after starting replication from a given source host and port
(0 when the source is reachable and serving). -/
structure ReplicationEnv where
  ioErrnoFor : String → Nat → Nat

/-- Modelled from the spec: the mechanism shared by `configureReplica`
and `configureIntermediatePrimary` — issue change-replication-source and
start-replication against the given source, leaving the instance
read-only; the resulting state reports the configured source and the IO
error number the environment yields for it. -/
def configureReplicationState (env : ReplicationEnv) (host : String) (port : Nat)
    (user : String) (s : DBState) : DBState :=
  { readOnly := true, sourceHost := host, sourcePort := port, sourceUser := user,
    ioRunning := true, sqlRunning := true, ioErrno := env.ioErrnoFor host port,
    sqlErrno := 0, gtidExecuted := s.gtidExecuted }

/-- The agent's status query, reading the observable instance state. -/
def statusOf (s : DBState) : InstanceStatus :=
  { readOnly := s.readOnly, ioRunning := s.ioRunning, sqlRunning := s.sqlRunning,
    lastIoErrno := s.ioErrno, lastSqlErrno := s.sqlErrno, sourceHost := s.sourceHost,
    sourcePort := s.sourcePort, gtidExecuted := s.gtidExecuted }

/-- Modelled from the spec: `configureIntermediatePrimaryOp.Run` — point
the instance at the cluster's externally declared replication source and
verify that the resulting replica reports the expected source host and a
zero IO error number; the verification failure is returned as the
error. The operator code is outside the excerpt (only its test is in
it). -/
def configureIntermediatePrimaryRun (env : ReplicationEnv)
    (opts : IntermediatePrimaryOptions) (s : DBState) : DBState × Option GoError :=
  let s' := configureReplicationState env opts.primaryHost opts.primaryPort
    opts.primaryUser s
  if s'.sourceHost == opts.primaryHost && s'.ioErrno == 0 then (s', none)
  else (s', some ⟨"intermediate primary verification failed"⟩)

/-- Modelled from the spec: the MySQL server port and the replication
account user used when a replica is pointed at a cluster member; both
are fixed constants outside the excerpt. -/
def MySQLPort : Nat := 3306

def ReplUser : String := "moco-repl"

/-- Modelled from the spec: `configureReplica` — point the instance at
the chosen primary cluster member and verify that the next status
collection would show it `replicaHealthy`. The operator code is outside
the excerpt. -/
def configureReplicaRun (env : ReplicationEnv) (cluster : MySQLCluster)
    (primaryIndex : Nat) (s : DBState) : DBState × Option GoError :=
  let s' := configureReplicationState env (cluster.PodHostname primaryIndex)
    MySQLPort ReplUser s
  if classify (some (statusOf s')) == .replicaHealthy then (s', none)
  else (s', some ⟨"replica verification failed"⟩)

/-! ### Concrete fixtures used by witness theorems -/

/-- A resolver that always fails. -/
def failResolver : Resolver := ⟨fun _ _ _ => .error ⟨"no route to host"⟩⟩

/-- A resolver that always resolves to one IP. -/
def okResolver : Resolver := ⟨fun _ _ _ => .ok "10.0.0.7"⟩

/-- A reloader whose TLS configuration generation equals the reading
instant. -/
def clockReloader : Reloader := ⟨fun t => ⟨t⟩⟩

/-- A gRPC environment whose channel creation succeeds. -/
def okGrpc : GrpcEnv := ⟨fun _ _ => .ok ⟨1⟩, fun c => ⟨c.handle + 100⟩⟩

/-- A gRPC environment whose channel creation fails. -/
def failGrpc : GrpcEnv := ⟨fun _ _ => .error ⟨"connection refused"⟩, fun c => ⟨c.handle⟩⟩

def ctx0 : Context := ⟨11, none⟩

def cluster0 : MySQLCluster := ⟨"test", 2, 1, none⟩

/-- A healthy read-only replica status with a given position. -/
def healthyReplica (g : Nat) : InstanceStatus :=
  ⟨true, true, true, 0, 0, "test-0", 3306, g⟩

/-- A writable (non-read-only) status with a given position. -/
def writableStatus (g : Nat) : InstanceStatus :=
  ⟨false, true, true, 0, 0, "", 0, g⟩

/-- Two writable instances: the split-brain fixture. -/
def wStsSplit : List (Option InstanceStatus) :=
  [some (writableStatus 3), some (writableStatus 7)]

def wCsSplit : ClusterStatus := ⟨.degraded .multiplePrimaries, some 0, wStsSplit⟩

/-- Two healthy read-only replicas, no candidate: the failover fixture. -/
def wStsNoCand : List (Option InstanceStatus) :=
  [some (healthyReplica 5), some (healthyReplica 9)]

def wCsNoCand : ClusterStatus := ⟨.degraded .noPrimary, none, wStsNoCand⟩

/-- A per-index query whose instance 0 fails and instance 1 answers. -/
def wQuery : Nat → Option InstanceStatus :=
  fun i => if i = 0 then none else some (writableStatus 4)

/-- A replication environment in which every source yields IO errno 0. -/
def env0 : ReplicationEnv := ⟨fun _ _ => 0⟩

def opts0 : IntermediatePrimaryOptions := ⟨"ext-src", 3307, "root", "pw"⟩

/-- An instance already in the end state `configureIntermediatePrimary`
aims for under `opts0`. -/
def sInter : DBState := ⟨true, "ext-src", 3307, "root", true, true, 0, 0, 42⟩

/-- An instance already in the end state `configureReplica` aims for
under `cluster0`, primary index 0. -/
def sRepl : DBState := ⟨true, "test-0", MySQLPort, ReplUser, true, true, 0, 0, 7⟩

/-- An unconfigured writable instance. -/
def sFresh : DBState := ⟨false, "", 0, "", false, false, 1, 1, 0⟩

/-! ## Supporting lemmas -/

theorem classify_some_ne_unreachable (s : InstanceStatus) :
    classify (some s) ≠ .unreachable := by
  show (if (!s.readOnly) = true then InstanceClass.primaryCandidate
    else if (s.ioRunning && s.sqlRunning && s.lastIoErrno == 0
        && s.lastSqlErrno == 0) = true then InstanceClass.replicaHealthy
    else InstanceClass.replicaBroken) ≠ .unreachable
  split_ifs <;> simp

theorem countClass_unreachable_all (sts : List (Option InstanceStatus))
    (h : countClass sts .unreachable = sts.length) :
    countClass sts .primaryCandidate = 0 := by
  unfold countClass at h ⊢
  have hall := List.countP_eq_length.mp h
  refine List.countP_eq_zero.mpr ?_
  intro s hsmem
  have hs := hall s hsmem
  simp only [beq_iff_eq] at hs ⊢
  simp [hs]

theorem statusAt_set (acc : List (Option InstanceStatus)) (o i : Nat)
    (v : Option InstanceStatus) (hi : i < acc.length) :
    statusAt (acc.set o v) i = if o = i then v else statusAt acc i := by
  unfold statusAt
  have hi' : i < (acc.set o v).length := by simpa using hi
  rw [List.getD_eq_getElem _ _ hi', List.getD_eq_getElem _ _ hi, List.getElem_set]

theorem collect_fold_length (query : Nat → Option InstanceStatus) :
    ∀ (order : List Nat) (acc : List (Option InstanceStatus)),
    (order.foldl (fun a j => a.set j (query j)) acc).length = acc.length := by
  intro order
  induction order with
  | nil => intro acc; rfl
  | cons o rest ih =>
    intro acc
    rw [List.foldl_cons, ih]
    exact List.length_set acc o _

theorem collect_fold_statusAt (query : Nat → Option InstanceStatus) :
    ∀ (order : List Nat) (acc : List (Option InstanceStatus)) (i : Nat),
    i < acc.length →
    statusAt (order.foldl (fun a j => a.set j (query j)) acc) i
      = if i ∈ order then query i else statusAt acc i := by
  intro order
  induction order with
  | nil => intro acc i hi; simp
  | cons o rest ih =>
    intro acc i hi
    have hlen : i < (acc.set o (query o)).length := by simpa using hi
    rw [List.foldl_cons, ih _ _ hlen, statusAt_set acc o i _ hi]
    by_cases hmem : i ∈ rest
    · simp [hmem]
    · by_cases ho : o = i
      · subst ho
        simp [hmem]
      · have hno : ¬ i ∈ o :: rest := by
          simp only [List.mem_cons]
          rintro (rfl | hr)
          · exact ho rfl
          · exact hmem hr
        simp [hmem, ho, hno]

theorem length_Collect (n : Nat) (query : Nat → Option InstanceStatus) :
    (Collect n query).length = n := by
  simp [Collect]

theorem statusAt_Collect (n : Nat) (query : Nat → Option InstanceStatus)
    (j : Nat) (hj : j < n) : statusAt (Collect n query) j = query j := by
  unfold Collect statusAt
  have hjl : j < ((List.range n).map query).length := by simpa using hj
  rw [List.getD_eq_getElem _ _ hjl]
  simp

theorem pickBest_eq_none (sts : List (Option InstanceStatus)) (l : List Nat) :
    pickBest sts l = none ↔ l = [] := by
  cases l with
  | nil => simp [pickBest]
  | cons i rest =>
    constructor
    · intro hc
      exfalso
      cases hr : pickBest sts rest with
      | none =>
        simp only [pickBest, hr] at hc
        exact Option.noConfusion hc
      | some b =>
        simp only [pickBest, hr] at hc
        by_cases hg : gtidAt sts i < gtidAt sts b
        · rw [if_pos hg] at hc; exact Option.noConfusion hc
        · rw [if_neg hg] at hc; exact Option.noConfusion hc
    · intro hc
      exact absurd hc (by simp)

theorem pickBest_mem (sts : List (Option InstanceStatus)) :
    ∀ (l : List Nat) (b : Nat), pickBest sts l = some b → b ∈ l := by
  intro l
  induction l with
  | nil => intro b h; simp [pickBest] at h
  | cons i rest ih =>
    intro b h
    cases hr : pickBest sts rest with
    | none =>
      simp only [pickBest, hr] at h
      have hb := Option.some.inj h
      subst hb
      exact List.mem_cons_self i rest
    | some br =>
      simp only [pickBest, hr] at h
      by_cases hg : gtidAt sts i < gtidAt sts br
      · rw [if_pos hg] at h
        have hb := Option.some.inj h
        subst hb
        exact List.mem_cons_of_mem i (ih br hr)
      · rw [if_neg hg] at h
        have hb := Option.some.inj h
        subst hb
        exact List.mem_cons_self i rest

theorem pickBest_max (sts : List (Option InstanceStatus)) :
    ∀ (l : List Nat) (b : Nat), pickBest sts l = some b →
    ∀ j ∈ l, gtidAt sts j ≤ gtidAt sts b := by
  intro l
  induction l with
  | nil => intro b h; simp [pickBest] at h
  | cons i rest ih =>
    intro b h j hj
    cases hr : pickBest sts rest with
    | none =>
      have h0 : rest = [] := (pickBest_eq_none sts rest).mp hr
      subst h0
      simp only [pickBest] at h
      have hb := Option.some.inj h
      subst hb
      simp only [List.mem_singleton] at hj
      subst hj
      exact le_refl _
    | some br =>
      simp only [pickBest, hr] at h
      by_cases hg : gtidAt sts i < gtidAt sts br
      · rw [if_pos hg] at h
        have hb := Option.some.inj h
        subst hb
        rcases List.mem_cons.mp hj with rfl | hjr
        · exact le_of_lt hg
        · exact ih br hr j hjr
      · rw [if_neg hg] at h
        have hb := Option.some.inj h
        subst hb
        rcases List.mem_cons.mp hj with rfl | hjr
        · exact le_refl _
        · exact le_trans (ih br hr j hjr) (le_of_not_lt hg)

theorem pickBest_tie_lowest (sts : List (Option InstanceStatus)) :
    ∀ (l : List Nat), l.Pairwise (· < ·) → ∀ (b : Nat), pickBest sts l = some b →
    ∀ j ∈ l, gtidAt sts j = gtidAt sts b → b ≤ j := by
  intro l
  induction l with
  | nil => intro _ b h; simp [pickBest] at h
  | cons i rest ih =>
    intro hp b h j hj heq
    obtain ⟨hlt, hrest⟩ := List.pairwise_cons.mp hp
    cases hr : pickBest sts rest with
    | none =>
      have h0 : rest = [] := (pickBest_eq_none sts rest).mp hr
      subst h0
      simp only [pickBest] at h
      have hb := Option.some.inj h
      subst hb
      simp only [List.mem_singleton] at hj
      omega
    | some br =>
      simp only [pickBest, hr] at h
      by_cases hg : gtidAt sts i < gtidAt sts br
      · rw [if_pos hg] at h
        have hb := Option.some.inj h
        subst hb
        rcases List.mem_cons.mp hj with rfl | hjr
        · omega
        · exact ih hrest br hr j hjr heq
      · rw [if_neg hg] at h
        have hb := Option.some.inj h
        subst hb
        rcases List.mem_cons.mp hj with rfl | hjr
        · exact le_refl _
        · exact le_of_lt (hlt j hjr)

theorem mem_candidateIndices (sts : List (Option InstanceStatus)) (i : Nat) :
    i ∈ candidateIndices sts ↔
      i < sts.length ∧ classify (statusAt sts i) = .primaryCandidate := by
  simp [candidateIndices, List.mem_filter, List.mem_range]

theorem candidateIndices_pairwise (sts : List (Option InstanceStatus)) :
    (candidateIndices sts).Pairwise (· < ·) :=
  List.Pairwise.filter _ (List.pairwise_lt_range _)

theorem healthyReplicaIndices_pairwise (sts : List (Option InstanceStatus)) :
    (healthyReplicaIndices sts).Pairwise (· < ·) :=
  List.Pairwise.filter _ (List.pairwise_lt_range _)

theorem map_readOnly_idem (x : Option InstanceStatus) :
    ((x.map fun s => { s with readOnly := true }).map
        fun s => { s with readOnly := true })
      = x.map fun s => { s with readOnly := true } := by
  cases x <;> rfl

theorem statusAt_setReadOnlyAt (sts : List (Option InstanceStatus)) (d i : Nat) :
    statusAt (setReadOnlyAt sts d) i
      = if d = i then (statusAt sts i).map (fun s => { s with readOnly := true })
        else statusAt sts i := by
  by_cases hi : i < sts.length
  · unfold setReadOnlyAt
    rw [statusAt_set sts d i _ hi]
    by_cases hdi : d = i
    · subst hdi; simp
    · simp [hdi]
  · have h1 : statusAt sts i = none := by
      unfold statusAt
      exact List.getD_eq_default _ _ (by omega)
    have h2 : statusAt (setReadOnlyAt sts d) i = none := by
      unfold statusAt setReadOnlyAt
      refine List.getD_eq_default _ _ ?_
      rw [List.length_set]
      omega
    rw [h1, h2]
    simp

theorem demote_foldl_length (dl : List Nat) :
    ∀ (sts : List (Option InstanceStatus)),
    (dl.foldl setReadOnlyAt sts).length = sts.length := by
  induction dl with
  | nil => intro sts; rfl
  | cons d rest ih =>
    intro sts
    rw [List.foldl_cons, ih]
    exact List.length_set sts d _

theorem statusAt_demote_foldl (dl : List Nat) :
    ∀ (sts : List (Option InstanceStatus)) (i : Nat),
    statusAt (dl.foldl setReadOnlyAt sts) i
      = if i ∈ dl then (statusAt sts i).map (fun s => { s with readOnly := true })
        else statusAt sts i := by
  induction dl with
  | nil => intro sts i; simp
  | cons d rest ih =>
    intro sts i
    rw [List.foldl_cons, ih, statusAt_setReadOnlyAt]
    by_cases hmem : i ∈ rest
    · by_cases hd : d = i
      · subst hd
        rw [if_pos hmem, if_pos rfl, map_readOnly_idem,
          if_pos (List.mem_cons_self d rest)]
      · rw [if_pos hmem, if_neg hd, if_pos (List.mem_cons_of_mem d hmem)]
    · by_cases hd : d = i
      · subst hd
        rw [if_neg hmem, if_pos rfl, if_pos (List.mem_cons_self d rest)]
      · have hno : ¬ i ∈ d :: rest := by
          simp only [List.mem_cons]
          rintro (rfl | hr)
          · exact hd rfl
          · exact hmem hr
        rw [if_neg hmem, if_neg hd, if_neg hno]

theorem classify_demoted_ne_candidate (s : InstanceStatus) :
    classify (some { s with readOnly := true }) ≠ .primaryCandidate := by
  show (if (!(true : Bool)) = true then InstanceClass.primaryCandidate
    else if (s.ioRunning && s.sqlRunning && s.lastIoErrno == 0
        && s.lastSqlErrno == 0) = true then InstanceClass.replicaHealthy
    else InstanceClass.replicaBroken) ≠ .primaryCandidate
  split_ifs <;> simp_all

theorem classify_candidate_readOnly_false (x : Option InstanceStatus)
    (h : classify x = .primaryCandidate) :
    ∃ s, x = some s ∧ s.readOnly = false := by
  cases x with
  | none => simp [classify] at h
  | some s =>
    refine ⟨s, rfl, ?_⟩
    by_contra hro
    have hro' : s.readOnly = true := by
      cases hval : s.readOnly
      · exact absurd hval hro
      · rfl
    rw [show classify (some s)
        = (if (!s.readOnly) = true then InstanceClass.primaryCandidate
          else if (s.ioRunning && s.sqlRunning && s.lastIoErrno == 0
              && s.lastSqlErrno == 0) = true then InstanceClass.replicaHealthy
          else InstanceClass.replicaBroken) from rfl, hro'] at h
    split_ifs at h
    simp_all

theorem statusAt_none_of_ge (sts : List (Option InstanceStatus)) (i : Nat)
    (h : sts.length ≤ i) : statusAt sts i = none :=
  List.getD_eq_default _ _ h

/-! ## Theorems -/

/-- C1: the aggregated cluster is Healthy iff exactly one instance is a
primary candidate, every other reachable instance is a healthy replica
(no broken replica), and the unreachable instances stay within the
configured tolerance; any other combination is Degraded with a reason
code. -/
theorem Aggregate_healthy_iff (cluster : MySQLCluster)
    (sts : List (Option InstanceStatus)) :
    ((Aggregate cluster sts).health = .healthy ↔
      countClass sts .primaryCandidate = 1
      ∧ countClass sts .replicaBroken = 0
      ∧ countClass sts .unreachable ≤ cluster.unreachableTolerance)
    ∧ ((Aggregate cluster sts).health = .healthy
        ∨ ∃ r, (Aggregate cluster sts).health = .degraded r) := by
  constructor
  · show aggHealth cluster sts = .healthy ↔ _
    unfold aggHealth
    split_ifs with h1 h2 h3 h4 h5
    · have h0 := countClass_unreachable_all sts h1.2
      constructor
      · intro hh; simp at hh
      · rintro ⟨hp, -, -⟩; omega
    · constructor
      · intro hh; simp at hh
      · rintro ⟨hp, -, -⟩; omega
    · constructor
      · intro hh; simp at hh
      · rintro ⟨hp, -, -⟩; omega
    · constructor
      · intro hh; simp at hh
      · rintro ⟨-, hb, -⟩; omega
    · constructor
      · intro hh; simp at hh
      · rintro ⟨-, -, hu⟩; omega
    · simp only [true_iff]
      refine ⟨by omega, by omega, by omega⟩
  · rcases hv : (Aggregate cluster sts).health with _ | r
    · exact Or.inl rfl
    · exact Or.inr ⟨r, rfl⟩

/-- C6: every call to `New` consults the Resolver exactly once, under a
context bounded by a fixed 5-second timeout, and a resolution failure is
returned directly as the error (no conn, no internal retry). -/
theorem New_resolve_timeout_no_retry (f : defaultAgentFactory) (env : GrpcEnv)
    (ctx : Context) (cluster : MySQLCluster) (index : Nat) :
    (f.New env ctx cluster index).resolveCalls = [ctx.withTimeout 5]
    ∧ (∃ d, (ctx.withTimeout 5).deadline = some d ∧ d ≤ ctx.now + 5)
    ∧ (∀ e, f.resolver.resolve (ctx.withTimeout 5) cluster index = .error e →
        (f.New env ctx cluster index).conn = none
        ∧ (f.New env ctx cluster index).err = some e) := by
  refine ⟨?_, ?_, ?_⟩
  · unfold defaultAgentFactory.New
    rcases h : f.resolver.resolve (ctx.withTimeout 5) cluster index with e | ip
    · simp [h]
    · rcases h2 : env.newClient (joinHostPort ip (toString AgentPort))
        ⟨cluster.PodHostname index,
          credentialsNewTLS (f.reloader.TLSClientConfig ctx.now), ⟨60⟩⟩ with e | c
      · simp [h, h2]
      · simp [h, h2]
  · unfold Context.withTimeout
    rcases hd : ctx.deadline with _ | dl
    · exact ⟨ctx.now + 5, rfl, le_refl _⟩
    · exact ⟨min dl (ctx.now + 5), rfl, min_le_right _ _⟩
  · intro e he
    unfold defaultAgentFactory.New
    simp [he]

/-- C6 witness: a concrete factory whose resolver fails. -/
theorem New_resolve_timeout_no_retry_witness :
    (defaultAgentFactory.mk failResolver clockReloader).resolver.resolve
        (ctx0.withTimeout 5) cluster0 0 = .error ⟨"no route to host"⟩
    ∧ ((defaultAgentFactory.mk failResolver clockReloader).New okGrpc ctx0 cluster0 0).conn = none
    ∧ ((defaultAgentFactory.mk failResolver clockReloader).New okGrpc ctx0 cluster0 0).err
        = some ⟨"no route to host"⟩ :=
  ⟨rfl, (New_resolve_timeout_no_retry (defaultAgentFactory.mk failResolver clockReloader)
    okGrpc ctx0 cluster0 0).2.2 ⟨"no route to host"⟩ rfl⟩

/-- C7: a successful `New` dials exactly once, with authority equal to
the instance's stable pod hostname, transport credentials built from the
TLS configuration read from the reloader at call time, and a 60-second
keepalive ping period. -/
theorem New_dial_config (f : defaultAgentFactory) (env : GrpcEnv)
    (ctx : Context) (cluster : MySQLCluster) (index : Nat)
    (h : (f.New env ctx cluster index).err = none) :
    ∃ addr opts, (f.New env ctx cluster index).dialCalls = [(addr, opts)]
      ∧ opts.authority = cluster.PodHostname index
      ∧ opts.creds = credentialsNewTLS (f.reloader.TLSClientConfig ctx.now)
      ∧ opts.keepalive.time = 60 := by
  unfold defaultAgentFactory.New at h ⊢
  rcases hr : f.resolver.resolve (ctx.withTimeout 5) cluster index with e | ip
  · simp [hr] at h
  · rcases h2 : env.newClient (joinHostPort ip (toString AgentPort))
      ⟨cluster.PodHostname index,
        credentialsNewTLS (f.reloader.TLSClientConfig ctx.now), ⟨60⟩⟩ with e | c
    · simp [hr, h2] at h
    · refine ⟨joinHostPort ip (toString AgentPort),
        ⟨cluster.PodHostname index,
          credentialsNewTLS (f.reloader.TLSClientConfig ctx.now), ⟨60⟩⟩, ?_, rfl, rfl, rfl⟩
      simp [hr, h2]

/-- C7 witness: a concrete successful call. -/
theorem New_dial_config_witness :
    ((defaultAgentFactory.mk okResolver clockReloader).New okGrpc ctx0 cluster0 1).err = none
    ∧ ∃ addr opts,
      ((defaultAgentFactory.mk okResolver clockReloader).New okGrpc ctx0 cluster0 1).dialCalls
        = [(addr, opts)]
      ∧ opts.authority = cluster0.PodHostname 1
      ∧ opts.creds = credentialsNewTLS
          ((defaultAgentFactory.mk okResolver clockReloader).reloader.TLSClientConfig ctx0.now)
      ∧ opts.keepalive.time = 60 :=
  ⟨rfl, New_dial_config (defaultAgentFactory.mk okResolver clockReloader)
    okGrpc ctx0 cluster0 1 rfl⟩

/-- C8: a successful `New` returns a value that is simultaneously the
agent RPC client and a closer (both embedded capabilities non-nil), and
the factory is stateless besides its two collaborator fields: factories
with equal resolver and reloader produce identical results on every
call. -/
theorem New_client_closer_stateless (f g : defaultAgentFactory) (env : GrpcEnv)
    (ctx : Context) (cluster : MySQLCluster) (index : Nat) :
    ((f.New env ctx cluster index).err = none →
      ∃ c, (f.New env ctx cluster index).conn = some c
        ∧ c.providesAgentClient ∧ c.providesCloser)
    ∧ (f.resolver = g.resolver → f.reloader = g.reloader →
        f.New env ctx cluster index = g.New env ctx cluster index) := by
  constructor
  · intro h
    unfold defaultAgentFactory.New at h ⊢
    rcases hr : f.resolver.resolve (ctx.withTimeout 5) cluster index with e | ip
    · simp [hr] at h
    · rcases h2 : env.newClient (joinHostPort ip (toString AgentPort))
        ⟨cluster.PodHostname index,
          credentialsNewTLS (f.reloader.TLSClientConfig ctx.now), ⟨60⟩⟩ with e | c
      · simp [hr, h2] at h
      · refine ⟨⟨some (env.newAgentClient c), some c⟩, ?_, rfl, rfl⟩
        simp [hr, h2]
  · intro h1 h2
    obtain ⟨fr, fl⟩ := f
    obtain ⟨gr, gl⟩ := g
    simp only at h1 h2
    subst h1; subst h2
    rfl

/-- C8 witness: a concrete successful call of a concrete factory. -/
theorem New_client_closer_stateless_witness :
    ((defaultAgentFactory.mk okResolver clockReloader).New okGrpc ctx0 cluster0 0).err = none
    ∧ (∃ c, ((defaultAgentFactory.mk okResolver clockReloader).New okGrpc ctx0 cluster0 0).conn
          = some c ∧ c.providesAgentClient ∧ c.providesCloser)
    ∧ (defaultAgentFactory.mk okResolver clockReloader).New okGrpc ctx0 cluster0 0
        = (defaultAgentFactory.mk okResolver clockReloader).New okGrpc ctx0 cluster0 0 :=
  ⟨rfl,
    (New_client_closer_stateless (defaultAgentFactory.mk okResolver clockReloader)
      (defaultAgentFactory.mk okResolver clockReloader) okGrpc ctx0 cluster0 0).1 rfl,
    (New_client_closer_stateless (defaultAgentFactory.mk okResolver clockReloader)
      (defaultAgentFactory.mk okResolver clockReloader) okGrpc ctx0 cluster0 0).2 rfl rfl⟩

/-- C10: the two failure paths of `New` return different shapes — a
resolver failure yields a nil `AgentConn` interface value (`none`) with
the error, while a gRPC channel-creation failure yields the zero value
`agentConn{}` (a non-nil interface value whose embedded client and
connection are nil) with the error. -/
theorem New_failure_shapes (f : defaultAgentFactory) (env : GrpcEnv)
    (ctx : Context) (cluster : MySQLCluster) (index : Nat) :
    (∀ e, f.resolver.resolve (ctx.withTimeout 5) cluster index = .error e →
      (f.New env ctx cluster index).conn = none
      ∧ (f.New env ctx cluster index).err = some e)
    ∧ (∀ ip e, f.resolver.resolve (ctx.withTimeout 5) cluster index = .ok ip →
      env.newClient (joinHostPort ip (toString AgentPort))
        ⟨cluster.PodHostname index,
          credentialsNewTLS (f.reloader.TLSClientConfig ctx.now), ⟨60⟩⟩ = .error e →
      (f.New env ctx cluster index).conn = some agentConnZero
      ∧ (f.New env ctx cluster index).err = some e)
    ∧ agentConnZero.agentClient = none ∧ agentConnZero.clientConn = none
    ∧ (none : Option agentConn) ≠ some agentConnZero := by
  refine ⟨?_, ?_, rfl, rfl, by simp⟩
  · intro e he
    unfold defaultAgentFactory.New
    simp [he]
  · intro ip e hip he
    unfold defaultAgentFactory.New
    simp [hip, he]

/-- C10 witness: both failure paths exercised at concrete inputs. -/
theorem New_failure_shapes_witness :
    (failResolver.resolve (ctx0.withTimeout 5) cluster0 0 = .error ⟨"no route to host"⟩
      ∧ ((defaultAgentFactory.mk failResolver clockReloader).New okGrpc ctx0 cluster0 0).conn
          = none
      ∧ ((defaultAgentFactory.mk failResolver clockReloader).New okGrpc ctx0 cluster0 0).err
          = some ⟨"no route to host"⟩)
    ∧ (okResolver.resolve (ctx0.withTimeout 5) cluster0 0 = .ok "10.0.0.7"
      ∧ ((defaultAgentFactory.mk okResolver clockReloader).New failGrpc ctx0 cluster0 0).conn
          = some agentConnZero
      ∧ ((defaultAgentFactory.mk okResolver clockReloader).New failGrpc ctx0 cluster0 0).err
          = some ⟨"connection refused"⟩) :=
  ⟨⟨rfl,
    (New_failure_shapes (defaultAgentFactory.mk failResolver clockReloader)
      okGrpc ctx0 cluster0 0).1 ⟨"no route to host"⟩ rfl⟩,
   ⟨rfl,
    (New_failure_shapes (defaultAgentFactory.mk okResolver clockReloader)
      failGrpc ctx0 cluster0 0).2.1 "10.0.0.7" ⟨"connection refused"⟩ rfl rfl⟩⟩

/-- C2: with more than one primary candidate, one Decision Logic pass
emits only demotions (no promotion), and afterwards exactly one instance
remains a primary candidate — the one with the (unique) highest
executed-transaction position, whatever its index. -/
theorem split_brain_one_pass (cs : ClusterStatus) (m : Nat)
    (h2 : 2 ≤ (candidateIndices cs.instances).length)
    (hm : m ∈ candidateIndices cs.instances)
    (hmax : ∀ j ∈ candidateIndices cs.instances, j ≠ m →
      gtidAt cs.instances j < gtidAt cs.instances m) :
    (∃ ops, Decide cs = .actions ops ∧ ops ≠ []
      ∧ ∀ a ∈ ops, ∃ i, a = .demote i)
    ∧ (OnePass cs).length = cs.instances.length
    ∧ (∀ i, classify (statusAt (OnePass cs) i) = .primaryCandidate ↔ i = m) := by
  rcases hc : candidateIndices cs.instances with _ | ⟨i1, _ | ⟨i2, rest⟩⟩
  · rw [hc] at h2; simp at h2
  · rw [hc] at h2; simp at h2
  obtain ⟨b, hb⟩ : ∃ b, pickBest cs.instances (i1 :: i2 :: rest) = some b := by
    cases hpb : pickBest cs.instances (i1 :: i2 :: rest) with
    | none => exact absurd ((pickBest_eq_none _ _).mp hpb) (by simp)
    | some b => exact ⟨b, rfl⟩
  have hm' : m ∈ i1 :: i2 :: rest := by rw [← hc]; exact hm
  have hbm : b = m := by
    by_contra hne
    have hbmem : b ∈ candidateIndices cs.instances := by
      rw [hc]; exact pickBest_mem _ _ _ hb
    have hlt := hmax b hbmem hne
    have hle := pickBest_max _ _ _ hb m hm'
    omega
  have hkeep : (pickBest cs.instances (i1 :: i2 :: rest)).getD i1 = m := by
    rw [hb, hbm]; rfl
  have hDecide : Decide cs = .actions (((i1 :: i2 :: rest).filter
      (fun k => k ≠ m)).map .demote) := by
    simp [Decide, hc, hkeep]
  have hOne : OnePass cs
      = ((i1 :: i2 :: rest).filter (fun k => k ≠ m)).foldl setReadOnlyAt
        cs.instances := by
    simp only [OnePass, hDecide]
    rw [List.foldl_map]
    rfl
  have hpw : (i1 :: i2 :: rest).Pairwise (· < ·) := by
    rw [← hc]; exact candidateIndices_pairwise _
  have h12 : i1 < i2 := (List.pairwise_cons.mp hpw).1 i2 (List.mem_cons_self i2 rest)
  have hdlne : (i1 :: i2 :: rest).filter (fun k => k ≠ m) ≠ [] := by
    rcases eq_or_ne i1 m with h1m | h1m
    · refine List.ne_nil_of_mem (List.mem_filter.mpr
        ⟨List.mem_cons_of_mem i1 (List.mem_cons_self i2 rest), ?_⟩)
      simp only [decide_eq_true_eq]
      omega
    · refine List.ne_nil_of_mem (List.mem_filter.mpr
        ⟨List.mem_cons_self i1 (i2 :: rest), ?_⟩)
      simp only [decide_eq_true_eq]
      exact h1m
  refine ⟨⟨((i1 :: i2 :: rest).filter (fun k => k ≠ m)).map .demote,
    hDecide, ?_, ?_⟩, ?_, ?_⟩
  · intro hcon
    exact hdlne (List.map_eq_nil_iff.mp hcon)
  · intro a ha
    obtain ⟨x, _, hfa⟩ := List.mem_map.mp ha
    exact ⟨x, hfa.symm⟩
  · rw [hOne]
    exact demote_foldl_length _ cs.instances
  · intro x
    rw [hOne, statusAt_demote_foldl]
    by_cases hx : x ∈ (i1 :: i2 :: rest).filter (fun k => k ≠ m)
    · have hxf := List.mem_filter.mp hx
      have hxc : x ∈ candidateIndices cs.instances := by rw [hc]; exact hxf.1
      have hxm : x ≠ m := by simpa using hxf.2
      obtain ⟨s, hs, -⟩ := classify_candidate_readOnly_false _
        ((mem_candidateIndices _ _).mp hxc).2
      rw [if_pos hx, hs]
      simp only [Option.map_some']
      constructor
      · intro hcand
        exact absurd hcand (classify_demoted_ne_candidate s)
      · intro hxm'
        exact absurd hxm' hxm
    · rw [if_neg hx]
      constructor
      · intro hcand
        have hxlen : x < cs.instances.length := by
          by_contra hge
          rw [statusAt_none_of_ge _ _ (by omega)] at hcand
          simp [classify] at hcand
        have hxc : x ∈ candidateIndices cs.instances :=
          (mem_candidateIndices _ _).mpr ⟨hxlen, hcand⟩
        by_contra hxm'
        apply hx
        refine List.mem_filter.mpr ⟨?_, ?_⟩
        · rw [← hc]; exact hxc
        · simpa using hxm'
      · intro hxm'
        subst hxm'
        exact ((mem_candidateIndices _ _).mp hm).2

/-- C2 witness: two writable instances with positions 3 and 7; only the
one with position 7 (index 1) remains a candidate after the pass. -/
theorem split_brain_one_pass_witness :
    (2 ≤ (candidateIndices wCsSplit.instances).length
      ∧ 1 ∈ candidateIndices wCsSplit.instances
      ∧ ∀ j ∈ candidateIndices wCsSplit.instances, j ≠ 1 →
          gtidAt wCsSplit.instances j < gtidAt wCsSplit.instances 1)
    ∧ (OnePass wCsSplit).length = wCsSplit.instances.length
    ∧ (classify (statusAt (OnePass wCsSplit) 1) = .primaryCandidate ↔ 1 = 1)
    ∧ (classify (statusAt (OnePass wCsSplit) 0) = .primaryCandidate ↔ 0 = 1) :=
  have h := split_brain_one_pass wCsSplit 1 (by decide) (by decide) (by decide)
  ⟨⟨by decide, by decide, by decide⟩, h.2.1, h.2.2 1, h.2.2 0⟩

/-- C3: with no primary candidate, the Decision Logic promotes the
healthy replica with the highest executed-transaction position (lowest
index on ties), and reports the terminal `failed` condition when the
healthy-replica set is empty, never selecting an arbitrary instance. -/
theorem no_candidate_failover (cs : ClusterStatus)
    (h : candidateIndices cs.instances = []) :
    (healthyReplicaIndices cs.instances = [] → Decide cs = .failed)
    ∧ (healthyReplicaIndices cs.instances ≠ [] →
        ∃ t, Decide cs = .actions [.promote t]
          ∧ t ∈ healthyReplicaIndices cs.instances
          ∧ (∀ j ∈ healthyReplicaIndices cs.instances,
              gtidAt cs.instances j ≤ gtidAt cs.instances t)
          ∧ (∀ j ∈ healthyReplicaIndices cs.instances,
              gtidAt cs.instances j = gtidAt cs.instances t → t ≤ j)) := by
  constructor
  · intro hh
    have hpb : pickBest cs.instances (healthyReplicaIndices cs.instances)
        = none := by
      rw [hh]
      rfl
    simp [Decide, h, hpb]
  · intro hh
    obtain ⟨b, hb⟩ : ∃ b, pickBest cs.instances
        (healthyReplicaIndices cs.instances) = some b := by
      cases hpb : pickBest cs.instances (healthyReplicaIndices cs.instances) with
      | none => exact absurd ((pickBest_eq_none _ _).mp hpb) hh
      | some b => exact ⟨b, rfl⟩
    refine ⟨b, ?_, pickBest_mem _ _ _ hb, pickBest_max _ _ _ hb,
      pickBest_tie_lowest _ _ (healthyReplicaIndices_pairwise _) b hb⟩
    simp [Decide, h, hb]

/-- C3 witness: two healthy read-only replicas with positions 5 and 9;
the Decision Logic promotes index 1. -/
theorem no_candidate_failover_witness :
    candidateIndices wCsNoCand.instances = []
    ∧ healthyReplicaIndices wCsNoCand.instances ≠ []
    ∧ (∃ t, Decide wCsNoCand = .actions [.promote t]
        ∧ t ∈ healthyReplicaIndices wCsNoCand.instances
        ∧ (∀ j ∈ healthyReplicaIndices wCsNoCand.instances,
            gtidAt wCsNoCand.instances j ≤ gtidAt wCsNoCand.instances t)
        ∧ (∀ j ∈ healthyReplicaIndices wCsNoCand.instances,
            gtidAt wCsNoCand.instances j = gtidAt wCsNoCand.instances t → t ≤ j)) :=
  ⟨by decide, by decide,
    (no_candidate_failover wCsNoCand (by decide)).2 (by decide)⟩

/-- C4: when the status query to one of N instances fails, collection
still returns one result per index in index order regardless of
completion order, the failed index holds the explicit error marker
(classified `unreachable`), every other index holds a valid status, and
the Aggregator does not judge the whole cluster unreachable. -/
theorem collect_partial_failure (n k : Nat) (cluster : MySQLCluster)
    (query : Nat → Option InstanceStatus) (order : List Nat)
    (hperm : order.Perm (List.range n))
    (hk : k < n) (hn : 2 ≤ n)
    (hfail : query k = none)
    (hok : ∀ j, j < n → j ≠ k → (query j).isSome = true) :
    CollectWithOrder n query order = Collect n query
    ∧ (Collect n query).length = n
    ∧ classify (statusAt (Collect n query) k) = .unreachable
    ∧ (∀ j, j < n → j ≠ k → statusAt (Collect n query) j = query j
        ∧ (statusAt (Collect n query) j).isSome = true)
    ∧ (Aggregate cluster (Collect n query)).health ≠ .degraded .allUnreachable := by
  have hlen1 : (CollectWithOrder n query order).length = n := by
    unfold CollectWithOrder
    rw [collect_fold_length]
    simp
  have heq : CollectWithOrder n query order = Collect n query := by
    apply List.ext_getElem (by rw [hlen1, length_Collect])
    intro i h1 h2
    have hi : i < n := by rwa [hlen1] at h1
    rw [← List.getD_eq_getElem _ none h1, ← List.getD_eq_getElem _ none h2]
    show statusAt (CollectWithOrder n query order) i = statusAt (Collect n query) i
    rw [statusAt_Collect n query i hi]
    unfold CollectWithOrder
    rw [collect_fold_statusAt query order _ i (by simpa using hi)]
    have hmem : i ∈ order := hperm.mem_iff.mpr (List.mem_range.mpr hi)
    simp [hmem]
  have hclass : classify (statusAt (Collect n query) k) = .unreachable := by
    rw [statusAt_Collect n query k hk, hfail]
    rfl
  have hothers : ∀ j, j < n → j ≠ k →
      statusAt (Collect n query) j = query j
      ∧ (statusAt (Collect n query) j).isSome = true := by
    intro j hj hjk
    refine ⟨statusAt_Collect n query j hj, ?_⟩
    rw [statusAt_Collect n query j hj]
    exact hok j hj hjk
  have hagg : (Aggregate cluster (Collect n query)).health
      ≠ .degraded .allUnreachable := by
    show aggHealth cluster (Collect n query) ≠ ClusterHealth.degraded .allUnreachable
    unfold aggHealth
    split_ifs with h1 h2 h3 h4 h5
    · exfalso
      obtain ⟨hne0, hcnt⟩ := h1
      unfold countClass at hcnt
      have hall := List.countP_eq_length.mp hcnt
      set j := if k = 0 then 1 else 0 with hjdef
      have hjn : j < n := by
        by_cases hk0 : k = 0
        · simp only [hjdef, if_pos hk0]; omega
        · simp only [hjdef, if_neg hk0]; omega
      have hjk : j ≠ k := by
        by_cases hk0 : k = 0
        · simp only [hjdef, if_pos hk0]; omega
        · simp only [hjdef, if_neg hk0]; omega
      have hjl : j < (Collect n query).length := by
        rw [length_Collect]; exact hjn
      have hjel : (Collect n query)[j] = query j := by
        rw [← List.getD_eq_getElem _ none hjl]
        exact statusAt_Collect n query j hjn
      have hmem : query j ∈ Collect n query := hjel ▸ List.getElem_mem hjl
      have hcl := hall _ hmem
      obtain ⟨s, hs⟩ := Option.isSome_iff_exists.mp (hok j hjn hjk)
      rw [hs] at hcl
      simp only [beq_iff_eq] at hcl
      exact classify_some_ne_unreachable s hcl
    · simp
    · simp
    · simp
    · simp
    · simp
  exact ⟨heq, length_Collect n query, hclass, hothers, hagg⟩

/-- C4 witness: two instances, instance 0 failing, completion order
reversed. -/
theorem collect_partial_failure_witness :
    ([1, 0].Perm (List.range 2) ∧ (0 : Nat) < 2 ∧ 2 ≤ 2 ∧ wQuery 0 = none
      ∧ (wQuery 1).isSome = true)
    ∧ CollectWithOrder 2 wQuery [1, 0] = Collect 2 wQuery
    ∧ (Collect 2 wQuery).length = 2
    ∧ classify (statusAt (Collect 2 wQuery) 0) = .unreachable
    ∧ (statusAt (Collect 2 wQuery) 1 = wQuery 1
        ∧ (statusAt (Collect 2 wQuery) 1).isSome = true)
    ∧ (Aggregate cluster0 (Collect 2 wQuery)).health ≠ .degraded .allUnreachable :=
  have h := collect_partial_failure 2 0 cluster0 wQuery [1, 0] (by decide)
    (by decide) (by decide) (by decide)
    (by intro j hj hjk; interval_cases j <;> simp_all [wQuery])
  ⟨⟨by decide, by decide, by decide, by decide, by decide⟩,
    h.1, h.2.1, h.2.2.1, h.2.2.2.1 1 (by decide) (by decide), h.2.2.2.2⟩

/-- C5: the topology operators are idempotent — running
`configureIntermediatePrimary` or `configureReplica` twice in succession
with identical inputs against an instance already in the desired end
state produces no state change and returns success both times. -/
theorem operators_idempotent (env : ReplicationEnv) (cluster : MySQLCluster)
    (pidx : Nat) (opts : IntermediatePrimaryOptions) (s t : DBState)
    (hs : s = configureReplicationState env opts.primaryHost opts.primaryPort
      opts.primaryUser s)
    (hes : env.ioErrnoFor opts.primaryHost opts.primaryPort = 0)
    (ht : t = configureReplicationState env (cluster.PodHostname pidx) MySQLPort
      ReplUser t)
    (het : env.ioErrnoFor (cluster.PodHostname pidx) MySQLPort = 0) :
    (configureIntermediatePrimaryRun env opts s = (s, none)
      ∧ configureIntermediatePrimaryRun env opts
          (configureIntermediatePrimaryRun env opts s).1 = (s, none))
    ∧ (configureReplicaRun env cluster pidx t = (t, none)
      ∧ configureReplicaRun env cluster pidx
          (configureReplicaRun env cluster pidx t).1 = (t, none)) := by
  have hrun1 : configureIntermediatePrimaryRun env opts s = (s, none) := by
    rw [configureIntermediatePrimaryRun, ← hs]
    have h1 : s.sourceHost = opts.primaryHost := congrArg DBState.sourceHost hs
    have h2 : s.ioErrno = 0 := (congrArg DBState.ioErrno hs).trans hes
    simp [h1, h2]
  have hrun2 : configureReplicaRun env cluster pidx t = (t, none) := by
    rw [configureReplicaRun, ← ht]
    have h1 : classify (some (statusOf t)) = .replicaHealthy := by
      rw [ht]
      simp [classify, statusOf, configureReplicationState, het]
    simp [h1]
  exact ⟨⟨hrun1, by rw [hrun1]; exact hrun1⟩, ⟨hrun2, by rw [hrun2]; exact hrun2⟩⟩

/-- C5 witness: both operators at concrete fixtures already in the
desired end state. -/
theorem operators_idempotent_witness :
    (sInter = configureReplicationState env0 opts0.primaryHost opts0.primaryPort
        opts0.primaryUser sInter
      ∧ env0.ioErrnoFor opts0.primaryHost opts0.primaryPort = 0
      ∧ sRepl = configureReplicationState env0 (cluster0.PodHostname 0) MySQLPort
          ReplUser sRepl
      ∧ env0.ioErrnoFor (cluster0.PodHostname 0) MySQLPort = 0)
    ∧ ((configureIntermediatePrimaryRun env0 opts0 sInter = (sInter, none)
        ∧ configureIntermediatePrimaryRun env0 opts0
            (configureIntermediatePrimaryRun env0 opts0 sInter).1 = (sInter, none))
      ∧ (configureReplicaRun env0 cluster0 0 sRepl = (sRepl, none)
        ∧ configureReplicaRun env0 cluster0 0
            (configureReplicaRun env0 cluster0 0 sRepl).1 = (sRepl, none))) :=
  ⟨⟨rfl, rfl, rfl, rfl⟩,
    operators_idempotent env0 cluster0 0 opts0 sInter sRepl rfl rfl rfl rfl⟩

/-- C9: after a successful `configureIntermediatePrimary` run, the next
status collection reports the instance read-only, with source host equal
to the declared external source host, IO error number 0, and both
replication threads running. -/
theorem intermediate_primary_postcondition (env : ReplicationEnv)
    (opts : IntermediatePrimaryOptions) (s : DBState)
    (h : (configureIntermediatePrimaryRun env opts s).2 = none) :
    (statusOf (configureIntermediatePrimaryRun env opts s).1).readOnly = true
    ∧ (statusOf (configureIntermediatePrimaryRun env opts s).1).sourceHost
        = opts.primaryHost
    ∧ (statusOf (configureIntermediatePrimaryRun env opts s).1).lastIoErrno = 0
    ∧ (statusOf (configureIntermediatePrimaryRun env opts s).1).ioRunning = true
    ∧ (statusOf (configureIntermediatePrimaryRun env opts s).1).sqlRunning = true := by
  by_cases he : env.ioErrnoFor opts.primaryHost opts.primaryPort = 0
  · simp [configureIntermediatePrimaryRun, configureReplicationState, statusOf, he]
  · exfalso
    simp [configureIntermediatePrimaryRun, configureReplicationState, he] at h

/-- C9 witness: a successful concrete run from a fresh instance. -/
theorem intermediate_primary_postcondition_witness :
    (configureIntermediatePrimaryRun env0 opts0 sFresh).2 = none
    ∧ ((statusOf (configureIntermediatePrimaryRun env0 opts0 sFresh).1).readOnly = true
      ∧ (statusOf (configureIntermediatePrimaryRun env0 opts0 sFresh).1).sourceHost
          = opts0.primaryHost
      ∧ (statusOf (configureIntermediatePrimaryRun env0 opts0 sFresh).1).lastIoErrno = 0
      ∧ (statusOf (configureIntermediatePrimaryRun env0 opts0 sFresh).1).ioRunning = true
      ∧ (statusOf (configureIntermediatePrimaryRun env0 opts0 sFresh).1).sqlRunning = true) :=
  ⟨rfl, intermediate_primary_postcondition env0 opts0 sFresh rfl⟩

end Moco
